import Mathlib

/-
Verification of the SafeCommandParser (src/unnamed/part_000): a shallow
embedding of the secure command interpreter for the lightning-calendar
repository, together with theorems settling the specification's claims.

Modelling conventions:
- JS strings are embedded as `List Char`; `String` is used for finished keys
  and identifiers.
- JS numbers are embedded as exact decimals (`DecNum`: an integer mantissa
  and a power-of-ten exponent), which every numeric literal the interpreter
  parses denotes exactly.  Floating-point rounding, overflow and the
  identification of distinct decimal spellings of one number are not
  modelled; no claim depends on them.
- The caller-supplied context holds `JsVal` values; functions are represented
  by an identifier (`JsVal.fn fid`) and an interpretation map passed to the
  dispatcher.  The dispatcher returns the list of invocations it performed, so
  "the method is never invoked" is expressed as an empty trace together with
  independence from the interpretation map.
- Scanning loops that are not structurally recursive take an explicit fuel
  argument; the wrappers supply fuel that exceeds the number of characters
  consumed (every recursive step consumes input), so fuel exhaustion is
  unreachable from the wrappers.
-/

namespace SafeCmd

/-- JS whitespace (the set matched by `\\s` and trimmed by JS trim), by code
point: ASCII whitespace, NBSP, OGHAM SPACE MARK, the U+2000..U+200A range,
LINE/PARAGRAPH SEPARATOR, NARROW NBSP, MMSP, IDEOGRAPHIC SPACE and the BOM. -/
def isJsWs (c : Char) : Bool :=
  let n := c.toNat
  n == 0x20 || n == 0x09 || n == 0x0a || n == 0x0d || n == 0x0b || n == 0x0c ||
  n == 0xa0 || n == 0x1680 || (0x2000 ≤ n && n ≤ 0x200a) ||
  n == 0x2028 || n == 0x2029 || n == 0x202f || n == 0x205f || n == 0x3000 || n == 0xfeff

/-- JS word character (the class `\w`, i.e. `[A-Za-z0-9_]`). -/
def isWordChar (c : Char) : Bool :=
  ('A' ≤ c && c ≤ 'Z') || ('a' ≤ c && c ≤ 'z') || ('0' ≤ c && c ≤ '9') || c == '_'

/-- `String.prototype.trim`: strip JS whitespace from both ends. -/
def trimChars (s : List Char) : List Char :=
  ((s.dropWhile isJsWs).reverse.dropWhile isJsWs).reverse

/-- `command.trim().replace(/;$/, '')`: the normalisation `execute` applies
before anything else (trim, then remove a single trailing semicolon). -/
def normalize (s : List Char) : List Char :=
  let t := trimChars s
  match t.getLast? with
  | some ';' => t.dropLast
  | _ => t

/-- Does `pre` occur at the start of `s`? (JS `String.prototype.startsWith`.) -/
def startsWithL : List Char → List Char → Bool
  | [], _ => true
  | _ :: _, [] => false
  | c :: cs, d :: s => c == d && startsWithL cs s

/-- Does `pat` occur anywhere in `s`? (JS `String.prototype.includes`.) -/
def containsSub (pat : List Char) : List Char → Bool
  | [] => startsWithL pat []
  | c :: t => startsWithL pat (c :: t) || containsSub pat t

/-- An exact decimal number `mant * 10 ^ exp10`, the embedding of the JS
numbers produced by the interpreter's literal parsing. -/
structure DecNum where
  mant : Int
  exp10 : Int
deriving DecidableEq

/-- A decimal with exponent 0 from an integer. -/
def DecNum.ofInt (n : Int) : DecNum := ⟨n, 0⟩

/-- How a `Date` argument was constructed: from an epoch-millisecond value,
from a raw string handed to the `Date` constructor, or an invalid date. -/
inductive ValueDate where
  | fromMs (ms : DecNum)
  | fromString (s : String)
  | invalid

/-- The tagged union of literal values the coercer produces (spec §3 "Value").
Objects are ordered key-value lists (JS insertion order); dates carry a
symbolic description of how the `Date` was built. -/
inductive Value where
  | null
  | undefined
  | bool (b : Bool)
  | num (n : DecNum)
  | str (s : String)
  | date (d : ValueDate)
  | obj (fields : List (String × Value))
  | arr (elems : List Value)

end SafeCmd

namespace SafeCmd

/-- JS `String.prototype.startsWith` on whole strings, via the underlying
character lists (which the kernel can evaluate). -/
def strStarts (p s : String) : Bool := startsWithL p.data s.data

/-- `sanitizers.string`: `String(val).replace(/[<>]/g, '')`. -/
def stripAngles (s : String) : String :=
  String.mk (s.data.filter fun c => !(c == '<' || c == '>'))

mutual

/-- `sanitizeObject(obj)` (part_000 lines 362-381).  `null`/`undefined` and
non-object values pass through; anything of JS `typeof 'object'` (plain
objects, arrays, dates) is rebuilt from its `Object.entries` with dangerous
keys dropped — so an array value is rebuilt as a plain mapping keyed by its
decimal indices, and a date (no own enumerable properties) becomes `{}`. -/
def sanitizeObject : Value → Value
  | .null => .null
  | .undefined => .undefined
  | .bool b => .bool b
  | .num q => .num q
  | .str s => .str s
  | .date _ => .obj []
  | .obj kvs => .obj (sanitizePairs kvs)
  | .arr vs => .obj (sanitizeElems 0 vs)

/-- The `for (const [key, value] of Object.entries(obj))` loop body of
`sanitizeObject`: skip keys starting with `__` or `on`; strip angle brackets
from string values; recurse into object-typed values; keep the rest. -/
def sanitizePairs : List (String × Value) → List (String × Value)
  | [] => []
  | (k, v) :: rest =>
    if strStarts "__" k || strStarts "on" k then sanitizePairs rest
    else (k, sanitizeField v) :: sanitizePairs rest

/-- Handling of a single retained entry value: `typeof value === 'string'` is
scrubbed, `typeof value === 'object'` (including `null`, arrays and dates)
recurses through `sanitizeObject`, anything else is kept unchanged. -/
def sanitizeField : Value → Value
  | .str s => .str (stripAngles s)
  | .null => .null
  | .obj kvs => .obj (sanitizePairs kvs)
  | .arr vs => .obj (sanitizeElems 0 vs)
  | .date _ => .obj []
  | .undefined => .undefined
  | .bool b => .bool b
  | .num q => .num q

/-- `Object.entries` of an array yields index-keyed entries `("0", v0)`, ...;
each then flows through the same key filter and value handling as object
entries. -/
def sanitizeElems (i : Nat) : List Value → List (String × Value)
  | [] => []
  | v :: rest =>
    if strStarts "__" (toString i) || strStarts "on" (toString i) then sanitizeElems (i + 1) rest
    else (toString i, sanitizeField v) :: sanitizeElems (i + 1) rest

end

example : sanitizeObject (.obj [("__proto__", .num (.ofInt 1)), ("onClick", .num (.ofInt 2)),
    ("title", .str "<b>hi</b>"), ("nested", .obj [("onLoad", .num (.ofInt 3)), ("safe", .str "ok")])]) =
    .obj [("title", .str "bhi/b"), ("nested", .obj [("safe", .str "ok")])] := by
  simp only [sanitizeObject, sanitizePairs, sanitizeField]; rfl

example : sanitizeObject (.obj [("a", .arr [.num (.ofInt 1), .num (.ofInt 2)])]) =
    .obj [("a", .obj [("0", .num (.ofInt 1)), ("1", .num (.ofInt 2))])] := by
  simp only [sanitizeObject, sanitizePairs, sanitizeField, sanitizeElems]; rfl

end SafeCmd

namespace SafeCmd

/-- Numeric value of a list of decimal digit characters. -/
def natOfDigits (ds : List Char) : Nat :=
  ds.foldl (fun n c => n * 10 + (c.toNat - 48)) 0

/-- Split a leading run of decimal digits from the rest. -/
def digitsRun (s : List Char) : List Char × List Char :=
  (s.takeWhile Char.isDigit, s.dropWhile Char.isDigit)

/-- Overwriting insert used for decoded object literals: a duplicate key keeps
its first position but takes the later value, as JS property assignment does. -/
def objInsertS (k : String) (v : Value) : List (String × Value) → List (String × Value)
  | [] => [(k, v)]
  | (k2, v2) :: rest => if k2 = k then (k2, v) :: rest else (k2, v2) :: objInsertS k v rest

/-- JSON insignificant whitespace. -/
def isJsonWs (c : Char) : Bool :=
  c == ' ' || c == '\t' || c == '\n' || c == '\r'

/-- Skip JSON whitespace. -/
def skipWs (s : List Char) : List Char := s.dropWhile isJsonWs

/-- Value of one hex digit, if the character is one. -/
def hexVal (c : Char) : Option Nat :=
  if '0' ≤ c && c ≤ '9' then some (c.toNat - 48)
  else if 'a' ≤ c && c ≤ 'f' then some (c.toNat - 87)
  else if 'A' ≤ c && c ≤ 'F' then some (c.toNat - 55)
  else none

/-- JSON string escape characters (other than `\u`), as a lookup table. -/
def escTable : List (Char × Char) :=
  [('"', '"'), ('\\', '\\'), ('/', '/'), ('b', '\x08'), ('f', '\x0c'),
   ('n', '\n'), ('r', '\r'), ('t', '\t')]

/-- The escape a character denotes, if any. -/
def escChar (c : Char) : Option Char :=
  (escTable.find? fun p => p.1 == c).map Prod.snd

/-- Body of a JSON string after the opening quote: accumulate characters until
the closing quote, handling escapes; unescaped control characters and bad
escapes are errors.  (A `\u` escape denoting a lone surrogate is not
representable as a Lean `Char`; no input in this development uses one.) -/
def jsonStringGo (acc : List Char) : List Char → Option (String × List Char)
  | [] => none
  | '"' :: t => some (String.mk acc.reverse, t)
  | '\\' :: 'u' :: a :: b :: c :: d :: t =>
    match hexVal a, hexVal b, hexVal c, hexVal d with
    | some ha, some hb, some hc, some hd =>
      jsonStringGo (Char.ofNat (((ha * 16 + hb) * 16 + hc) * 16 + hd) :: acc) t
    | _, _, _, _ => none
  | '\\' :: e :: t =>
    match escChar e with
    | some c => jsonStringGo (c :: acc) t
    | none => none
  | c :: t => if c.toNat < 32 then none else jsonStringGo (c :: acc) t

/-- A JSON number (`-? (0 | [1-9][0-9]*) frac? exp?`) as an exact decimal.
The parse stops at the first character that cannot extend the number; illegal
followers such as a bare `.` or `e` then fail in the surrounding grammar,
exactly as `JSON.parse` rejects them. -/
def jsonNumber (s : List Char) : Option (Value × List Char) :=
  let (neg, s1) := match s with
    | '-' :: t => (true, t)
    | t => (false, t)
  let intPart : Option (Nat × List Char) := match s1 with
    | '0' :: t => some (0, t)
    | c :: _ => if c.isDigit then
        let (d, r) := digitsRun s1
        some (natOfDigits d, r)
      else none
    | [] => none
  match intPart with
  | none => none
  | some (ip, r1) =>
    let (fracN, fracLen, r2) : Nat × Nat × List Char := match r1 with
      | '.' :: t =>
        let (d, r) := digitsRun t
        if d.isEmpty then (0, 0, r1) else (natOfDigits d, d.length, r)
      | _ => (0, 0, r1)
    let (expNeg, expN, r3) : Bool × Nat × List Char := match r2 with
      | e :: t =>
        if e == 'e' || e == 'E' then
          let (esign, t2) := match t with
            | '+' :: u => (false, u)
            | '-' :: u => (true, u)
            | u => (false, u)
          let (d, r) := digitsRun t2
          if d.isEmpty then (false, 0, r2) else (esign, natOfDigits d, r)
        else (false, 0, r2)
      | [] => (false, 0, r2)
    let mant : Int := (ip * 10 ^ fracLen + fracN : Nat)
    let mant : Int := if neg then -mant else mant
    let e : Int := (if expNeg then -(expN : Int) else (expN : Int)) - (fracLen : Int)
    some (.num ⟨mant, e⟩, r3)

mutual

/-- One JSON value, fuelled recursive descent: `jsonVal fuel s` parses a value
from `s` (after leading whitespace) and returns it with the unconsumed rest.
Fuel only bounds recursion depth; the wrapper supplies more than enough. -/
def jsonVal : Nat → List Char → Option (Value × List Char)
  | 0, _ => none
  | fuel + 1, s =>
    let s := skipWs s
    if startsWithL "null".data s then some (.null, s.drop 4)
    else if startsWithL "true".data s then some (.bool true, s.drop 4)
    else if startsWithL "false".data s then some (.bool false, s.drop 5)
    else match s with
    | '"' :: t => (jsonStringGo [] t).map fun p => (.str p.1, p.2)
    | '[' :: t =>
      (match skipWs t with
       | ']' :: r => some (.arr [], r)
       | _ => (jsonItems fuel t).map fun p => (.arr p.1, p.2))
    | '{' :: t =>
      (match skipWs t with
       | '}' :: r => some (.obj [], r)
       | _ => (jsonMembers fuel t []).map fun p => (.obj p.1, p.2))
    | _ => jsonNumber s

/-- Comma-separated JSON array items up to the closing bracket. -/
def jsonItems : Nat → List Char → Option (List Value × List Char)
  | 0, _ => none
  | fuel + 1, s =>
    match jsonVal fuel s with
    | none => none
    | some (v, r) =>
      match skipWs r with
      | ',' :: r2 => (jsonItems fuel r2).map fun p => (v :: p.1, p.2)
      | ']' :: r2 => some ([v], r2)
      | _ => none

/-- Comma-separated JSON object members up to the closing brace, accumulating
with overwriting insertion. -/
def jsonMembers : Nat → List Char → List (String × Value) → Option (List (String × Value) × List Char)
  | 0, _, _ => none
  | fuel + 1, s, acc =>
    match skipWs s with
    | '"' :: t =>
      (match jsonStringGo [] t with
       | none => none
       | some (k, r) =>
         match skipWs r with
         | ':' :: r2 =>
           (match jsonVal fuel r2 with
            | none => none
            | some (v, r3) =>
              let acc2 := objInsertS k v acc
              match skipWs r3 with
              | ',' :: r4 => jsonMembers fuel r4 acc2
              | '}' :: r4 => some (acc2, r4)
              | _ => none)
         | _ => none)
    | _ => none

end

/-- `JSON.parse(text)` as used by `parseValue`: parse one JSON value and
require only whitespace to remain; `none` models a thrown `SyntaxError`. -/
def jsonParse (s : List Char) : Option Value :=
  match jsonVal (2 * s.length + 2) s with
  | some (v, rest) => if skipWs rest = [] then some v else none
  | none => none

example : jsonParse "[1, 2, 3]".data = some (.arr [.num (.ofInt 1), .num (.ofInt 2), .num (.ofInt 3)]) := rfl
example : jsonParse "[1, 2,".data = none := rfl
example : jsonParse "-4.25".data = some (.num ⟨-425, -2⟩) := rfl
example : jsonParse "\x7b\"a\": 1, \"b\": \x7b\"c\": true\x7d\x7d".data =
    some (.obj [("a", .num (.ofInt 1)), ("b", .obj [("c", .bool true)])]) := rfl
example : jsonParse "\"x\\ny\"".data = some (.str "x\ny") := rfl

end SafeCmd

namespace SafeCmd

/-- `value.replace(/'/g, '"')`: turn every single quote into a double quote. -/
def replaceQuotes (s : List Char) : List Char :=
  s.map fun c => if c == '\'' then '"' else c

/-- One pass of `.replace(/\\X/g, 'X')` for a quote character `q`: a backslash
immediately followed by `q` collapses to `q`; scanning resumes after the pair,
exactly as a global regex replace does. -/
def replaceEsc (q : Char) : List Char → List Char
  | [] => []
  | '\\' :: c :: t => if c == q then c :: replaceEsc q t else '\\' :: replaceEsc q (c :: t)
  | c :: t => c :: replaceEsc q t

/-- `.replace(/\\"/g, '"').replace(/\\'/g, "'")` applied to a quoted string
body (part_000 line 209). -/
def unescapeQuotes (s : List Char) : List Char := replaceEsc '\'' (replaceEsc '"' s)

/-- `value.startsWith('"') && value.endsWith('"')`, or the same with single
quotes (part_000 lines 207-208). -/
def isQuoted (v : List Char) : Bool :=
  (startsWithL "\"".data v && v.getLast? == some '"') ||
  (startsWithL "'".data v && v.getLast? == some '\'')

/-- Tail of the numeric-literal test: `\d+(\.\d+)?` anchored to the end. -/
def numTail (s : List Char) : Bool :=
  let (d, r) := digitsRun s
  if d.isEmpty then false
  else match r with
    | [] => true
    | '.' :: r2 =>
      let (d2, r3) := digitsRun r2
      !d2.isEmpty && r3.isEmpty
    | _ => false

/-- The numeric-literal test `/^-?\d+(\.\d+)?$/` (part_000 line 213). -/
def isNumLit (s : List Char) : Bool :=
  match s with
  | '-' :: t => numTail t
  | t => numTail t

/-- `Number(value)` for a string already known to match the literal regex. -/
def numOfLit (s : List Char) : DecNum :=
  let (neg, t) := match s with
    | '-' :: t => (true, t)
    | t => (false, t)
  let (d, r) := digitsRun t
  let (m, fl) : Nat × Nat := match r with
    | '.' :: r2 =>
      let (d2, _) := digitsRun r2
      (natOfDigits d * 10 ^ d2.length + natOfDigits d2, d2.length)
    | _ => (natOfDigits d, 0)
  ⟨if neg then -(m : Int) else (m : Int), -(fl : Int)⟩

/-- The result of coercing a string with JS `Number()`: a finite decimal or a
signed infinity; `none` models `NaN`. -/
inductive JsNum where
  | fin (n : DecNum)
  | posInf
  | negInf

/-- Value of one binary digit. -/
def binVal (c : Char) : Option Nat :=
  if c == '0' then some 0 else if c == '1' then some 1 else none

/-- Value of one octal digit. -/
def octVal (c : Char) : Option Nat :=
  if '0' ≤ c && c ≤ '7' then some (c.toNat - 48) else none

/-- A non-empty digit string in the given base, or `none`. -/
def radixNum (base : Nat) (digOf : Char → Option Nat) (t : List Char) : Option Nat :=
  if t.isEmpty then none
  else t.foldl (fun acc c =>
    match acc, digOf c with
    | some n, some d => some (n * base + d)
    | _, _ => none) (some 0)

/-- The decimal part of the `Number()` string grammar:
`DecimalDigits ('.' DecimalDigits?)? ExponentPart? | '.' DecimalDigits ExponentPart?`,
consuming the whole input. -/
def parseDecTail (t : List Char) : Option DecNum :=
  let (ip, r1) := digitsRun t
  let core : Option (Nat × Nat × List Char) :=
    if ip.isEmpty then
      match r1 with
      | '.' :: r2 =>
        let (fp, r3) := digitsRun r2
        if fp.isEmpty then none else some (natOfDigits fp, fp.length, r3)
      | _ => none
    else
      match r1 with
      | '.' :: r2 =>
        let (fp, r3) := digitsRun r2
        some (natOfDigits ip * 10 ^ fp.length + natOfDigits fp, fp.length, r3)
      | _ => some (natOfDigits ip, 0, r1)
  match core with
  | none => none
  | some (m, fl, r) =>
    match r with
    | [] => some ⟨m, -(fl : Int)⟩
    | e :: t2 =>
      if e == 'e' || e == 'E' then
        let (esign, t3) := match t2 with
          | '+' :: u => (false, u)
          | '-' :: u => (true, u)
          | u => (false, u)
        let (d, r4) := digitsRun t3
        if d.isEmpty || !r4.isEmpty then none
        else some ⟨m, (if esign then -(natOfDigits d : Int) else (natOfDigits d : Int)) - (fl : Int)⟩
      else none

/-- JS `Number(string)` (the coercion behind `isNaN(dateArg)`): trim, then the
string numeric grammar — empty means 0, optional sign plus `Infinity` or a
decimal literal, and unsigned `0x`/`0b`/`0o` radix literals; `none` is `NaN`. -/
def jsStringToNum (s : List Char) : Option JsNum :=
  let t := trimChars s
  if t.isEmpty then some (.fin ⟨0, 0⟩)
  else
    let (neg, signed, t1) := match t with
      | '+' :: r => (false, true, r)
      | '-' :: r => (true, true, r)
      | r => (false, false, r)
    if t1 = "Infinity".data then some (if neg then .negInf else .posInf)
    else if startsWithL "0x".data t1 || startsWithL "0X".data t1 then
      if signed then none else (radixNum 16 hexVal (t1.drop 2)).map fun n => .fin ⟨n, 0⟩
    else if startsWithL "0b".data t1 || startsWithL "0B".data t1 then
      if signed then none else (radixNum 2 binVal (t1.drop 2)).map fun n => .fin ⟨n, 0⟩
    else if startsWithL "0o".data t1 || startsWithL "0O".data t1 then
      if signed then none else (radixNum 8 octVal (t1.drop 2)).map fun n => .fin ⟨n, 0⟩
    else (parseDecTail t1).map fun d => .fin (if neg then ⟨-d.mant, d.exp10⟩ else d)

/-- Fuelled global substring replacement (`String.prototype.replace` with a
global literal pattern): at each position, a match is replaced and scanning
resumes after it, otherwise one character is copied.  Each step consumes at
least one character when the pattern is non-empty, so `length + 1` fuel
suffices. -/
def replaceSubF : Nat → List Char → List Char → List Char → List Char
  | 0, _, _, s => s
  | fuel + 1, pat, repl, s =>
    if !pat.isEmpty && startsWithL pat s then repl ++ replaceSubF fuel pat repl (s.drop pat.length)
    else match s with
      | [] => []
      | c :: t => c :: replaceSubF fuel pat repl t

/-- Wrapper for `replaceSubF` with sufficient fuel. -/
def replaceSub (pat repl s : List Char) : List Char := replaceSubF (s.length + 1) pat repl s

/-- The anchored match `/^(\d+)\s*([\+\-])\s*(\d+)$/` of the `Date.now()`
arithmetic idiom, returning the computed millisecond value.  Greedy scanning
is exact here because digits, whitespace and the sign are disjoint classes. -/
def matchNowExpr (s : List Char) : Option Int :=
  let (d1, r1) := digitsRun s
  if d1.isEmpty then none
  else
    let r2 := r1.dropWhile isJsWs
    match r2 with
    | op :: r3 =>
      if op == '+' || op == '-' then
        let r4 := r3.dropWhile isJsWs
        let (d2, r5) := digitsRun r4
        if d2.isEmpty || !r5.isEmpty then none
        else some (if op == '+' then (natOfDigits d1 : Int) + (natOfDigits d2 : Int)
                   else (natOfDigits d1 : Int) - (natOfDigits d2 : Int))
      else none
    | [] => none

/-- The `new Date(...)` branch of `parseValue` (part_000 lines 218-238),
applied to the whole `value` text (known to start with `new Date(`).  `now` is
the current epoch-millisecond clock reading (`Date.now()`). -/
def parseDateExpr (now : Int) (value : List Char) : Value :=
  let dateArg := (value.drop 9).dropLast
  if dateArg.isEmpty then .date (.fromMs ⟨now, 0⟩)
  else if startsWithL "\"".data dateArg || startsWithL "'".data dateArg then
    .date (.fromString (String.mk ((dateArg.drop 1).dropLast)))
  else match jsStringToNum dateArg with
    | some (.fin q) => .date (.fromMs q)
    | some _ => .date .invalid
    | none =>
      if containsSub "Date.now()".data dateArg then
        let expression := replaceSub "Date.now()".data (toString now).data dateArg
        match matchNowExpr expression with
        | some ms => .date (.fromMs ⟨ms, 0⟩)
        | none => .date (.fromString (String.mk dateArg))
      else .date (.fromString (String.mk dateArg))

end SafeCmd

namespace SafeCmd

/-- `value.replace(/(\w+):/g, '"$1":')` (part_000 line 244), fuelled: at a word
character, the maximal word run followed by a colon is wrapped in quotes;
otherwise one character is copied and scanning retries at the next position,
exactly as a global regex replace does.  Greedy runs are exact because a
shorter run would be followed by a word character, not a colon. -/
def quoteKeysF : Nat → List Char → List Char
  | 0, s => s
  | _ + 1, [] => []
  | fuel + 1, c :: rest =>
    if isWordChar c then
      let w := (c :: rest).takeWhile isWordChar
      let r1 := (c :: rest).dropWhile isWordChar
      match r1 with
      | ':' :: r2 => '"' :: (w ++ '"' :: ':' :: quoteKeysF fuel r2)
      | _ => c :: quoteKeysF fuel rest
    else c :: quoteKeysF fuel rest

/-- Wrapper for `quoteKeysF` with sufficient fuel (each step consumes at least
one character). -/
def quoteKeys (s : List Char) : List Char := quoteKeysF (s.length + 1) s

/-- `content.match(/(\w+)\s*:\s*([^,]+)/g)` (part_000 line 270), fuelled: the
list of matched substrings, scanning left to right, retrying at the next
character after a failed attempt and resuming after each match. -/
def objPairMatchesF : Nat → List Char → List (List Char)
  | 0, _ => []
  | _ + 1, [] => []
  | fuel + 1, c :: rest =>
    if isWordChar c then
      let w := (c :: rest).takeWhile isWordChar
      let r1 := (c :: rest).dropWhile isWordChar
      let ws1 := r1.takeWhile isJsWs
      let r2 := r1.dropWhile isJsWs
      match r2 with
      | ':' :: r3 =>
        let ws2 := r3.takeWhile isJsWs
        let r4 := r3.dropWhile isJsWs
        let body := r4.takeWhile (fun c2 => c2 != ',')
        let r5 := r4.dropWhile (fun c2 => c2 != ',')
        if body.isEmpty then objPairMatchesF fuel rest
        else (w ++ ws1 ++ ':' :: ws2 ++ body) :: objPairMatchesF fuel r5
      | _ => objPairMatchesF fuel rest
    else objPairMatchesF fuel rest

/-- Wrapper for `objPairMatchesF` with sufficient fuel. -/
def objPairMatches (s : List Char) : List (List Char) := objPairMatchesF (s.length + 1) s

/-- JS `String.prototype.split(':')`. -/
def splitOnColon : List Char → List (List Char)
  | [] => [[]]
  | ':' :: t => [] :: splitOnColon t
  | c :: t =>
    match splitOnColon t with
    | g :: gs => (c :: g) :: gs
    | [] => [[c]]

mutual

/-- `parseValue(value)` (part_000 lines 197-262), fuelled for the mutual
recursion with the permissive object fallback.  Each fallback level strips the
braces and parses strictly shorter value texts, so the wrapper's
`length + 1` fuel is never exhausted. -/
def parseValueF : Nat → Int → List Char → Value
  | 0, _, _ => .undefined
  | fuel + 1, now, value =>
    if value = "null".data then .null
    else if value = "undefined".data then .undefined
    else if value = "true".data then .bool true
    else if value = "false".data then .bool false
    else if isQuoted value then .str (String.mk (unescapeQuotes ((value.drop 1).dropLast)))
    else if isNumLit value then .num (numOfLit value)
    else if startsWithL "new Date(".data value then parseDateExpr now value
    else if startsWithL "\x7b".data value then
      match jsonParse (replaceQuotes (quoteKeys value)) with
      | some v => v
      | none => parseObjectF fuel now value
    else if startsWithL "[".data value then
      match jsonParse (replaceQuotes value) with
      | some v => v
      | none => .arr []
    else .str (String.mk value)

/-- `parseObject(objString)` (part_000 lines 264-279): strip the outer braces,
collect `(\w+)\s*:\s*([^,]+)` matches, split each on `:` (so a value text is
truncated at a second colon), trim, and coerce the value recursively.  The
empty-list fallback for a pair without a colon is unreachable: every matched
pair contains one. -/
def parseObjectF : Nat → Int → List Char → Value
  | 0, _, _ => .undefined
  | fuel + 1, now, objString =>
    let content := (objString.drop 1).dropLast
    let pairs := objPairMatches content
    .obj (pairs.foldl (fun acc pr =>
      let parts := (splitOnColon pr).map trimChars
      let key := String.mk (parts.headD [])
      let val := (parts.drop 1).headD []
      objInsertS key (parseValueF fuel now val) acc) [])

end

/-- `parseValue` with the fuel the interpreter's call sites warrant. -/
def parseValue (now : Int) (value : List Char) : Value :=
  parseValueF (value.length + 1) now value

/-- The character loop of `parseArguments` (part_000 lines 161-188), carrying
the accumulated current argument, bracket depth, in-string state (the
remembered quote character) and the previous character (the JS code inspects
`argsString[i - 1]` for the escape test). -/
def argsLoop (now : Int) : List Char → Option Char → List Char → Int → Option Char → List Value → List Value
  | [], _, current, _, _, acc =>
    if (trimChars current).isEmpty then acc else acc ++ [parseValue now (trimChars current)]
  | c :: rest, prev, current, depth, inStr, acc =>
    match inStr with
    | none =>
      if c == '"' || c == '\'' then
        argsLoop now rest (some c) (current ++ [c]) depth (some c) acc
      else if c == '{' || c == '[' || c == '(' then
        argsLoop now rest (some c) (current ++ [c]) (depth + 1) none acc
      else if c == '}' || c == ']' || c == ')' then
        argsLoop now rest (some c) (current ++ [c]) (depth - 1) none acc
      else if c == ',' && depth == 0 then
        argsLoop now rest (some c) [] depth none (acc ++ [parseValue now (trimChars current)])
      else
        argsLoop now rest (some c) (current ++ [c]) depth none acc
    | some q =>
      if c == q && prev != some '\\' then
        argsLoop now rest (some c) (current ++ [c]) depth none acc
      else
        argsLoop now rest (some c) (current ++ [c]) depth (some q) acc

/-- `parseArguments(argsString)` (part_000 lines 152-195). -/
def parseArguments (now : Int) (argsString : List Char) : List Value :=
  if (trimChars argsString).isEmpty then []
  else argsLoop now argsString none [] 0 none []

example : parseValue 0 "'x,y'".data = .str "x,y" := rfl
example : parseValue 0 "\x7ba:1,b:2\x7d".data =
    .obj [("a", .num (.ofInt 1)), ("b", .num (.ofInt 2))] := rfl
example : (parseArguments 0 "\x7ba:1,b:2\x7d, 'x,y', [1,2,3]".data).length = 3 := rfl
example : parseArguments 0 "  ".data = [] := rfl
example : parseValue 0 "[1, 2,".data = .arr [] := rfl
example : parseValue 0 "\x7bonClick: 2\x7d".data = .obj [("onClick", .num (.ofInt 2))] := rfl
example : parseValue 0 "\x7ba: x\x7d".data = .obj [("a", .str "x")] := rfl
example : parseArguments 0 "\"a,b\x7bc\x7d\"".data = [.str "a,b\x7bc\x7d"] := rfl
example : parseValue 5 "new Date()".data = .date (.fromMs ⟨5, 0⟩) := rfl
example : parseValue 0 "new Date(\"2024-01-01\")".data = .date (.fromString "2024-01-01") := rfl
example : parseValue 100 "new Date(Date.now() + 50)".data = .date (.fromMs ⟨150, 0⟩) := rfl

end SafeCmd

namespace SafeCmd

/-- Tokens of the deny-pattern mini-language: literal text (case-sensitive or
case-insensitive), `\s*`, `\s+` and `\w+`. -/
inductive RTok where
  | lit (cs : List Char)
  | litCI (cs : List Char)
  | wsStar
  | wsPlus
  | wordPlus

/-- Consume a case-sensitive literal. -/
def stripLit : List Char → List Char → Option (List Char)
  | [], s => some s
  | _ :: _, [] => none
  | c :: cs, d :: s => if c == d then stripLit cs s else none

/-- Consume a case-insensitive literal (ASCII folding, as regex `/i`). -/
def stripLitCI : List Char → List Char → Option (List Char)
  | [], s => some s
  | _ :: _, [] => none
  | c :: cs, d :: s => if c.toLower == d.toLower then stripLitCI cs s else none

/-- Match a token list at the start of the input.  Greedy consumption of
`\s*`, `\s+` and `\w+` runs is exact for the deny patterns below because each
such token is followed by a literal whose first character is outside the
token's class, so regex backtracking could never succeed where the greedy
match fails. -/
def matchToksAt : List RTok → List Char → Bool
  | [], _ => true
  | .lit cs :: rest, s =>
    (match stripLit cs s with
     | some r => matchToksAt rest r
     | none => false)
  | .litCI cs :: rest, s =>
    (match stripLitCI cs s with
     | some r => matchToksAt rest r
     | none => false)
  | .wsStar :: rest, s => matchToksAt rest (s.dropWhile isJsWs)
  | .wsPlus :: rest, s =>
    (match s with
     | c :: t => isJsWs c && matchToksAt rest (t.dropWhile isJsWs)
     | [] => false)
  | .wordPlus :: rest, s =>
    (match s with
     | c :: t => isWordChar c && matchToksAt rest (t.dropWhile isWordChar)
     | [] => false)

/-- `pattern.test(s)`: does the token pattern match at some position? -/
def patTest (p : List RTok) : List Char → Bool
  | [] => matchToksAt p []
  | c :: t => matchToksAt p (c :: t) || patTest p t

/-- The ordered denylist of `validateSafety` (part_000 lines 85-103), each
pattern paired with its JS source text (which the thrown message displays). -/
def dangerousPatterns : List (String × List RTok) :=
  [("/eval\\s*\\(/i", [.litCI "eval".data, .wsStar, .lit "(".data]),
   ("/function\\s*\\(/i", [.litCI "function".data, .wsStar, .lit "(".data]),
   ("/Function\\s*\\(/i", [.litCI "Function".data, .wsStar, .lit "(".data]),
   ("/new\\s+Function/i", [.litCI "new".data, .wsPlus, .litCI "Function".data]),
   ("/setTimeout/i", [.litCI "setTimeout".data]),
   ("/setInterval/i", [.litCI "setInterval".data]),
   ("/document\\./i", [.litCI "document.".data]),
   ("/window\\./i", [.litCI "window.".data]),
   ("/localStorage/i", [.litCI "localStorage".data]),
   ("/sessionStorage/i", [.litCI "sessionStorage".data]),
   ("/fetch\\s*\\(/i", [.litCI "fetch".data, .wsStar, .lit "(".data]),
   ("/XMLHttpRequest/i", [.litCI "XMLHttpRequest".data]),
   ("/import\\s*\\(/i", [.litCI "import".data, .wsStar, .lit "(".data]),
   ("/<script/i", [.litCI "<script".data]),
   ("/on\\w+\\s*=/i", [.litCI "on".data, .wordPlus, .wsStar, .lit "=".data]),
   ("/javascript:/i", [.litCI "javascript:".data]),
   ("/\\$\\\x7b/", [.lit "$\x7b".data])]

/-- `validateSafety(command)` (part_000 lines 83-110): the source text of the
first matching deny pattern, or `none` when the command is clean. -/
def validateSafety (s : List Char) : Option String :=
  (dangerousPatterns.find? fun p => patTest p.2 s).map fun p => p.1

example : validateSafety "eval(1)".data = some "/eval\\s*\\(/i" := rfl
example : validateSafety "calendar.today()".data = none := rfl
example : validateSafety "x = onclick  = 3".data = some "/on\\w+\\s*=/i" := rfl
example : validateSafety "new  function  (".data = some "/function\\s*\\(/i" := rfl
example : validateSafety "a($\x7bb\x7d)".data = some "/\\$\\\x7b/" := rfl

end SafeCmd

namespace SafeCmd

/-- A character the regex `.` (no `s` flag) matches: anything but a line
terminator. -/
def isDotChar (c : Char) : Bool :=
  !(c == '\n' || c == '\r' || c.toNat == 0x2028 || c.toNat == 0x2029)

/-- The dotted-identifier head `(\w+)(?:\.(\w+))?(?:\.(\w+))?` shared by the
method-call and property-access shapes (part_000 lines 114, 127).  Maximal
word runs are exact: a shorter run would be followed by a word character,
which can continue neither `\.` nor the tail.  A failed optional group is
skipped, leaving the rest of the input to the tail. -/
def matchHead (s : List Char) : Option (String × Option String × Option String × List Char) :=
  let w0 := s.takeWhile isWordChar
  let r0 := s.dropWhile isWordChar
  if w0.isEmpty then none
  else
    match r0 with
    | '.' :: r1 =>
      let w1 := r1.takeWhile isWordChar
      let r2 := r1.dropWhile isWordChar
      if w1.isEmpty then some (String.mk w0, none, none, r0)
      else
        (match r2 with
         | '.' :: r3 =>
           let w2 := r3.takeWhile isWordChar
           let r4 := r3.dropWhile isWordChar
           if w2.isEmpty then some (String.mk w0, some (String.mk w1), none, r2)
           else some (String.mk w0, some (String.mk w1), some (String.mk w2), r4)
         | _ => some (String.mk w0, some (String.mk w1), none, r2))
    | _ => some (String.mk w0, none, none, r0)

/-- The argument tail `\((.*)\)$`: an opening parenthesis, then (because `$`
anchors at the end of input and `.` matches no line terminator) everything up
to a final closing parenthesis, which must be the last character. -/
def matchParenTail (r : List Char) : Option (List Char) :=
  match r with
  | '(' :: rest =>
    (match rest.getLast? with
     | some ')' =>
       let mid := rest.dropLast
       if mid.all isDotChar then some mid else none
     | _ => none)
  | _ => none

/-- The constructor shape `/^new\s+(\w+)\((.*)\)$/` (part_000 line 139). -/
def matchCtor (s : List Char) : Option (String × List Char) :=
  match stripLit "new".data s with
  | none => none
  | some r0 =>
    match r0 with
    | [] => none
    | c :: t =>
      if isJsWs c then
        let r1 := t.dropWhile isJsWs
        let w := r1.takeWhile isWordChar
        let r2 := r1.dropWhile isWordChar
        if w.isEmpty then none
        else (matchParenTail r2).map fun mid => (String.mk w, mid)
      else none

/-- The three command shapes of the grammar classifier (spec §3
ParsedCommand). -/
inductive ParsedCommand where
  | methodCall (object : String) (property subProperty : Option String) (args : List Value)
  | propAccess (object : String) (property subProperty : Option String)
  | ctorCall (className : String) (args : List Value)

/-- `parseCommand(command)` (part_000 lines 112-150): try the method-call
shape, then property access, then the constructor shape; `none` is the
invalid-format case. -/
def parseCommand (now : Int) (s : List Char) : Option ParsedCommand :=
  match matchHead s with
  | some (o, p1, p2, r) =>
    (match matchParenTail r with
     | some argsText => some (.methodCall o p1 p2 (parseArguments now argsText))
     | none =>
       if r.isEmpty then some (.propAccess o p1 p2)
       else (matchCtor s).map fun pr => .ctorCall pr.1 (parseArguments now pr.2))
  | none => (matchCtor s).map fun pr => .ctorCall pr.1 (parseArguments now pr.2)

example : parseCommand 0 "calendar.today()".data =
    some (.methodCall "calendar" (some "today") none []) := rfl
example : parseCommand 0 "calendar.eventStore.add(1)".data =
    some (.methodCall "calendar" (some "eventStore") (some "add") [.num (.ofInt 1)]) := rfl
example : parseCommand 0 "calendar.view".data =
    some (.propAccess "calendar" (some "view") none) := rfl
example : parseCommand 0 "new Unapproved()".data = some (.ctorCall "Unapproved" []) := rfl
example : parseCommand 0 "a.b.c.d(1)".data = none := rfl
example : parseCommand 0 "a[0]".data = none := rfl

end SafeCmd

namespace SafeCmd

/-- A runtime value reachable from the caller-supplied context.  Functions are
represented by an identifier interpreted through the map given to the
dispatcher; plain objects are ordered field lists.  Property reads on
primitives and functions yield `undefined` (prototype-chain members are not
modelled; no command in this development touches one). -/
inductive JsVal where
  | undefined
  | null
  | bool (b : Bool)
  | num (n : DecNum)
  | str (s : String)
  | fn (fid : Nat)
  | obj (fields : List (String × JsVal))

/-- The caller-supplied Context: root identifier to value. -/
abbrev Context := List (String × JsVal)

/-- Association-list lookup (JS property/member read returning `undefined` when
missing is layered on top). -/
def lookupEntry {α : Type} : List (String × α) → String → Option α
  | [], _ => none
  | (k2, v) :: rest, k => if k2 = k then some v else lookupEntry rest k

/-- `this.context[object]`: a missing root reads as `undefined`. -/
def ctxGet (ctx : Context) (k : String) : JsVal :=
  (lookupEntry ctx k).getD .undefined

/-- `target[name]` for the values the dispatcher reads through. -/
def getProp (v : JsVal) (k : String) : JsVal :=
  match v with
  | .obj fields => (lookupEntry fields k).getD .undefined
  | _ => .undefined

/-- JS truthiness test `!v` (negated): `undefined`, `null`, `false`, `0` and
the empty string are falsy. -/
def falsy : JsVal → Bool
  | .undefined => true
  | .null => true
  | .bool b => !b
  | .num n => n.mant == 0
  | .str s => s.isEmpty
  | _ => false

/-- `v === undefined`. -/
def isUndefined : JsVal → Bool
  | .undefined => true
  | _ => false

/-- The method allow-list scoped to `calendar` (part_000 lines 21-27). -/
def calendarMethods : List String :=
  ["getEvents", "addEvent", "updateEvent", "removeEvent", "setEvents",
   "getEventsForDate", "getEventsInRange", "setView", "getView",
   "next", "previous", "today", "getCurrentDate", "setCurrentDate",
   "getTimezone", "setTimezone", "getViewData", "getEventById",
   "detectConflicts", "on", "off", "emit"]

/-- `buildAllowedMethods()` (part_000 lines 19-43): the fixed AllowList, a
mapping from scope name to permitted member names. -/
def allowedMethods : List (String × List String) :=
  [("calendar", calendarMethods),
   ("Event", ["constructor", "validate", "normalize", "clone"]),
   ("EventStore",
    ["add", "update", "remove", "get", "getAll", "clear",
     "getByDate", "getByDateRange", "getStats", "getPerformanceMetrics",
     "query", "hasConflicts", "getConflicts"]),
   ("eventStore",
    ["add", "update", "remove", "get", "getAll", "clear",
     "getByDate", "getByDateRange", "getStats", "getPerformanceMetrics"]),
   ("state",
    ["undo", "redo", "canUndo", "canRedo", "getUndoCount", "getRedoCount",
     "subscribe", "unsubscribe", "getState"])]

/-- `this.allowedMethods[property] || this.allowedMethods[object]` (part_000
line 311): the scope keyed by the property name when that lookup yields a
list, else by the root name.  (A present list is always truthy in JS, even
when empty.) -/
def scopeList (property : Option String) (object : String) : Option (List String) :=
  match property.bind (lookupEntry allowedMethods) with
  | some l => some l
  | none => lookupEntry allowedMethods object

/-- The fixed constructor allow-list `this.allowedObjects` (part_000 line 8). -/
def allowedObjects : List String := ["calendar", "Event", "EventStore"]

/-- The error taxonomy (spec §7), carrying the JS message text.  `execute`
wraps every thrown message in `Command execution failed: ...`; the wrapper is
pure message formatting and is left implicit here. -/
inductive ExecError where
  | securityViolation (pattern : String)
  | invalidFormat
  | notFound (msg : String)
  | forbidden (msg : String)
  | notCallable (msg : String)

/-- An observable side effect of dispatch: one method invocation (with its
receiver and coerced arguments) or one construction. -/
inductive CallEvent where
  | methodCall (fid : Nat) (recv : JsVal) (args : List Value)
  | construct (fid : Nat) (args : List Value)

/-- A dispatch outcome together with the trace of invocations performed. -/
abbrev ExecResult := Except ExecError JsVal × List CallEvent

/-- A parsed method call handed to `executeMethod`. -/
structure MethodCmd where
  object : String
  property : Option String
  subProperty : Option String
  args : List Value

/-- The tail of `executeMethod` from line 298 on, after the target has been
resolved: pick the callable, check it is a function, consult the allow-list
keyed by `subProperty || 'call'`, and invoke.  `applyFn` interprets function
identifiers; evaluation is pure, so the receiver (recomputed from the context
at line 317) is hoisted into a `let`. -/
def executeMethodOn (ctx : Context) (applyFn : Nat → JsVal → List Value → JsVal)
    (p : MethodCmd) (target : JsVal) : ExecResult :=
  let methodName := match p.subProperty with
    | some s => s
    | none => match p.property with
      | some _ => "call"
      | none => p.object
  let method := match p.subProperty with
    | some s => getProp target s
    | none => target
  match method with
  | .fn fid =>
    let recv := match p.property with
      | some prop => getProp (ctxGet ctx p.object) prop
      | none => ctxGet ctx p.object
    (match scopeList p.property p.object with
     | some allowedList =>
       if allowedList.contains (p.subProperty.getD "call") then
         (.ok (applyFn fid recv p.args), [.methodCall fid recv p.args])
       else
         (.error (.forbidden ("Method '" ++
           (match p.subProperty with
            | some s => s
            | none => p.property.getD "undefined") ++ "' is not allowed")), [])
     | none => (.ok (applyFn fid recv p.args), [.methodCall fid recv p.args]))
  | m =>
    match p.subProperty with
    | some _ =>
      if falsy m then (.error (.notCallable ("'" ++ methodName ++ "' is not a function")), [])
      else (.ok m, [])
    | none => (.error (.notCallable ("'" ++ methodName ++ "' is not a function")), [])

/-- `executeMethod(parsed)` (part_000 lines 281-319): resolve the root (falsy
reads as not found), then the optional property segment (falsy again), then
dispatch on the resolved target. -/
def executeMethod (ctx : Context) (applyFn : Nat → JsVal → List Value → JsVal)
    (p : MethodCmd) : ExecResult :=
  let target0 := ctxGet ctx p.object
  if falsy target0 then
    (.error (.notFound ("Object '" ++ p.object ++ "' not found")), [])
  else
    match p.property with
    | some prop =>
      let target1 := getProp target0 prop
      if falsy target1 then
        (.error (.notFound ("Property '" ++ prop ++ "' not found on " ++ p.object)), [])
      else executeMethodOn ctx applyFn p target1
    | none => executeMethodOn ctx applyFn p target0

/-- A parsed property access handed to `executeProperty`. -/
structure PropCmd where
  object : String
  property : Option String
  subProperty : Option String

/-- `executeProperty(parsed)` (part_000 lines 321-344): the root is rejected
when falsy, but the two later segments are rejected only when strictly
`undefined`. -/
def executeProperty (ctx : Context) (p : PropCmd) : Except ExecError JsVal :=
  let v0 := ctxGet ctx p.object
  if falsy v0 then .error (.notFound ("Object '" ++ p.object ++ "' not found"))
  else
    let step1 : Except ExecError JsVal := match p.property with
      | some prop =>
        let v1 := getProp v0 prop
        if isUndefined v1 then .error (.notFound ("Property '" ++ prop ++ "' not found on " ++ p.object))
        else .ok v1
      | none => .ok v0
    match step1 with
    | .error e => .error e
    | .ok v1 =>
      match p.subProperty with
      | some sub =>
        let v2 := getProp v1 sub
        if isUndefined v2 then .error (.notFound ("Property '" ++ sub ++ "' not found"))
        else .ok v2
      | none => .ok v1

/-- A parsed constructor call handed to `executeConstructor`. -/
structure CtorCmd where
  className : String
  args : List Value

/-- `executeConstructor(parsed)` (part_000 lines 346-360): the class name must
be in the fixed constructor allow-list, then resolve it in the context (falsy
reads as not found) and construct.  `constructFn` interprets construction; a
resolved non-function would raise the runtime's TypeError, modelled as
NotCallable (unreachable in the claims below). -/
def executeConstructor (ctx : Context) (constructFn : Nat → List Value → JsVal)
    (p : CtorCmd) : ExecResult :=
  if allowedObjects.contains p.className then
    let C := ctxGet ctx p.className
    if falsy C then (.error (.notFound ("Class '" ++ p.className ++ "' not found")), [])
    else
      match C with
      | .fn fid => (.ok (constructFn fid p.args), [.construct fid p.args])
      | _ => (.error (.notCallable ("Class '" ++ p.className ++ "' is not a constructor")), [])
  else (.error (.forbidden ("Constructor '" ++ p.className ++ "' is not allowed")), [])

/-- `execute(command)` (part_000 lines 51-81): normalise, screen against the
denylist, classify, dispatch.  The JS try/catch re-wraps any thrown message
with a `Command execution failed: ` prefix; errors are kept structured here. -/
def execute (ctx : Context) (applyFn : Nat → JsVal → List Value → JsVal)
    (constructFn : Nat → List Value → JsVal) (now : Int) (command : String) : ExecResult :=
  let cmd := normalize command.data
  match validateSafety cmd with
  | some pat => (.error (.securityViolation pat), [])
  | none =>
    match parseCommand now cmd with
    | some (.methodCall o p1 p2 args) => executeMethod ctx applyFn ⟨o, p1, p2, args⟩
    | some (.propAccess o p1 p2) => (executeProperty ctx ⟨o, p1, p2⟩, [])
    | some (.ctorCall c args) => executeConstructor ctx constructFn ⟨c, args⟩
    | none => (.error .invalidFormat, [])

/-- A small concrete context used by the witnesses: a calendar object with a
`today` method (allow-listed), a `foo` method (not allow-listed) and an
`eventStore` sub-object. -/
def demoCtx : Context :=
  [("calendar", .obj [("today", .fn 0), ("foo", .fn 1), ("eventStore", .obj [("add", .fn 2)])])]

example : ∀ a c now, execute demoCtx a c now "calendar.today()" =
    (.error (.forbidden "Method 'today' is not allowed"), []) := fun _ _ _ => rfl
example : execute demoCtx (fun _ _ _ => .num (.ofInt 7)) (fun _ _ => .undefined) 0
    "calendar.eventStore.add(1)" =
    (.ok (.num (.ofInt 7)), [.methodCall 2 (.obj [("add", .fn 2)]) [.num (.ofInt 1)]]) := rfl
example : ∀ a c now, execute demoCtx a c now "new Unapproved()" =
    (.error (.forbidden "Constructor 'Unapproved' is not allowed"), []) := fun _ _ _ => rfl
example : ∀ a c now, execute demoCtx a c now "eval(1)" =
    (.error (.securityViolation "/eval\\s*\\(/i"), []) := fun _ _ _ => rfl

end SafeCmd

namespace SafeCmd

/-- A successful association-list lookup returns one of the stored values. -/
theorem lookupEntry_mem {α : Type} {l : List (String × α)} {k : String} {v : α}
    (h : lookupEntry l k = some v) : v ∈ l.map Prod.snd := by
  induction l with
  | nil => simp [lookupEntry] at h
  | cons hd tl ih =>
    obtain ⟨k2, v2⟩ := hd
    rw [lookupEntry] at h
    by_cases hk : k2 = k
    · simp [hk] at h
      simp [h]
    · simp [hk] at h
      simp [ih h]

/-- No list stored in the fixed AllowList contains the name `call`. -/
theorem allowList_call_free {k : String} {l : List String}
    (h : lookupEntry allowedMethods k = some l) : l.contains "call" = false := by
  have hm := lookupEntry_mem h
  fin_cases hm <;> decide

/-- Whatever scope `executeMethod` ends up consulting, its list lacks `call`. -/
theorem scopeList_call_free {pr : Option String} {o : String} {l : List String}
    (h : scopeList pr o = some l) : l.contains "call" = false := by
  unfold scopeList at h
  rcases hb : pr.bind (lookupEntry allowedMethods) with _ | l2
  · rw [hb] at h
    exact allowList_call_free h
  · rw [hb] at h
    obtain ⟨pk, hpk⟩ := Option.bind_eq_some.mp hb
    cases h
    exact allowList_call_free hpk.2

/-- C1: the specification claims that a well-formed two-segment method call
`obj.prop(args)` whose `prop` is in the allow-list scoped to `obj` is
dispatched, invoking the resolved method once and returning its value.  The
code instead checks the literal name `call` against the scope list
(`allowedList.includes(subProperty || 'call')`, part_000 line 312), and no
list in the fixed AllowList contains `call` — so even `calendar.today()`,
with `today` in the calendar allow-list and resolving to a function on the
context, is rejected as Forbidden with no invocation, for every function
interpretation and clock value.  This contradicts the repository's own
allow-list data and its console help text (`calendar.today()` is an
advertised command): a code bug, not intended behaviour. -/
theorem allowlisted_two_segment_call_is_rejected :
    "today" ∈ calendarMethods ∧
    scopeList (some "today") "calendar" = some calendarMethods ∧
    getProp (ctxGet demoCtx "calendar") "today" = .fn 0 ∧
    ∀ (applyFn : Nat → JsVal → List Value → JsVal) (constructFn : Nat → List Value → JsVal)
      (now : Int),
      execute demoCtx applyFn constructFn now "calendar.today()" =
        (.error (.forbidden "Method 'today' is not allowed"), []) :=
  ⟨by decide, rfl, rfl, fun _ _ _ => rfl⟩

/-- C2: the specification claims every mapping produced by the value coercer
for a `{`-headed argument passes through the Object Sanitizer.  `parseValue`
never calls `sanitizeObject` (the `sanitizers.object` entry built in the
constructor is dead code): the decoded mapping for `{onClick: 2}` keeps its
`on`-prefixed key, which the sanitizer — had it been applied — would have
dropped.  A code bug relative to the documented design. -/
theorem parsed_object_literal_is_not_sanitized :
    (∀ now : Int, parseValue now "\x7bonClick: 2\x7d".data =
      .obj [("onClick", .num (.ofInt 2))]) ∧
    sanitizeObject (.obj [("onClick", .num (.ofInt 2))]) = .obj [] :=
  ⟨fun _ => rfl, by simp only [sanitizeObject, sanitizePairs]; rfl⟩

/-- C3: an input whose normalised form (trimmed, trailing semicolon removed)
matches some denylist pattern makes `execute` fail with a SecurityViolation
naming the first matching pattern, with an empty invocation trace and a
result independent of the context and of the function interpretations — no
method, property access or construction of the Context is reached. -/
theorem security_violation_blocks_dispatch (s : String)
    (h : ∃ p ∈ dangerousPatterns, patTest p.2 (normalize s.data) = true) :
    ∃ pat, validateSafety (normalize s.data) = some pat ∧
      ∀ (ctx : Context) (applyFn : Nat → JsVal → List Value → JsVal)
        (constructFn : Nat → List Value → JsVal) (now : Int),
        execute ctx applyFn constructFn now s =
          (.error (.securityViolation pat), []) := by
  obtain ⟨p, hp, hmatch⟩ := h
  have hsome : (dangerousPatterns.find? fun q => patTest q.2 (normalize s.data)).isSome := by
    rw [List.find?_isSome]
    exact ⟨p, hp, hmatch⟩
  obtain ⟨q, hq⟩ := Option.isSome_iff_exists.mp hsome
  refine ⟨q.1, ?_, fun ctx applyFn constructFn now => ?_⟩
  · rw [validateSafety, hq]
    rfl
  · rw [execute]
    have : validateSafety (normalize s.data) = some q.1 := by
      rw [validateSafety, hq]; rfl
    rw [this]

/-- Witness for C3 at the concrete input `eval(1)`. -/
theorem security_violation_blocks_dispatch_witness :
    ∃ pat, validateSafety (normalize "eval(1)".data) = some pat ∧
      ∀ (ctx : Context) (applyFn : Nat → JsVal → List Value → JsVal)
        (constructFn : Nat → List Value → JsVal) (now : Int),
        execute ctx applyFn constructFn now "eval(1)" =
          (.error (.securityViolation pat), []) :=
  security_violation_blocks_dispatch "eval(1)" (by decide)

end SafeCmd

namespace SafeCmd

/-- C4: a method call `obj.prop(args)` whose `prop` resolves to a function on
the target but is absent from the (non-empty) allow-list for the applicable
scope fails Forbidden, and the resolved method is never invoked: the trace is
empty and the result does not depend on the function interpretation. -/
theorem forbidden_method_never_invoked
    (ctx : Context) (applyFn : Nat → JsVal → List Value → JsVal)
    (o prop : String) (args : List Value) (l : List String) (fid : Nat)
    (hroot : falsy (ctxGet ctx o) = false)
    (hres : getProp (ctxGet ctx o) prop = .fn fid)
    (hscope : scopeList (some prop) o = some l)
    (hne : l ≠ [])
    (habsent : prop ∉ l) :
    executeMethod ctx applyFn ⟨o, some prop, none, args⟩ =
      (.error (.forbidden ("Method '" ++ prop ++ "' is not allowed")), []) := by
  have hcall := scopeList_call_free hscope
  simp only [executeMethod, hroot, Bool.false_eq_true, if_false, hres]
  simp only [executeMethodOn, hres]
  rw [hscope]
  have hmem : "call" ∉ l := by simpa using hcall
  simp [falsy, hmem]

/-- Witness for C4: `calendar.foo(...)` where `foo` is a function on the demo
context's calendar but absent from the calendar allow-list. -/
theorem forbidden_method_never_invoked_witness :
    executeMethod demoCtx (fun _ _ _ => .undefined) ⟨"calendar", some "foo", none, []⟩ =
      (.error (.forbidden "Method 'foo' is not allowed"), []) :=
  forbidden_method_never_invoked demoCtx (fun _ _ _ => .undefined) "calendar" "foo" [] calendarMethods
    1 rfl rfl rfl (by decide) (by decide)

/-- C5: the argument lexer does not split on commas inside quotes or nested
brackets — the spec's example text yields exactly three top-level arguments —
and any blank argument-list text yields the empty list. -/
theorem parseArguments_nested_split_and_blank :
    (∀ now : Int, (parseArguments now "\x7ba:1,b:2\x7d, 'x,y', [1,2,3]".data).length = 3) ∧
    ∀ (now : Int) (s : List Char), (trimChars s).isEmpty = true → parseArguments now s = [] :=
  ⟨fun _ => rfl, fun now s h => by simp [parseArguments, h]⟩

/-- Witness for C5: the example text and the blank text ` `. -/
theorem parseArguments_nested_split_and_blank_witness :
    (parseArguments 0 "\x7ba:1,b:2\x7d, 'x,y', [1,2,3]".data).length = 3 ∧
    parseArguments 0 " ".data = [] :=
  ⟨parseArguments_nested_split_and_blank.1 0,
   parseArguments_nested_split_and_blank.2 0 " ".data rfl⟩

/-- C6: coercing the quoted literal `"a,b{c}"` through argument splitting
yields exactly one String value whose characters are the original
`a,b{c}` — the embedded comma and braces, being quoted, neither split the
argument nor alter it, so re-serialising the String value reproduces the
original characters. -/
theorem string_literal_roundtrip :
    ∀ now : Int, parseArguments now "\"a,b\x7bc\x7d\"".data = [.str "a,b\x7bc\x7d"] :=
  fun _ => rfl

/-- Witness for C6 at clock 0. -/
theorem string_literal_roundtrip_witness :
    parseArguments 0 "\"a,b\x7bc\x7d\"".data = [.str "a,b\x7bc\x7d"] :=
  string_literal_roundtrip 0

/-- C7: a constructor command `new C(args)` whose class name is outside the
fixed constructible-class allow-list (`allowedObjects`, distinct from the
method allow-list) makes `execute` fail Forbidden with an empty trace and a
result independent of the construction interpretation: construction is never
invoked. -/
theorem ctor_not_allowlisted_forbidden
    (ctx : Context) (applyFn : Nat → JsVal → List Value → JsVal)
    (constructFn : Nat → List Value → JsVal) (now : Int) (s : String)
    (c : String) (args : List Value)
    (hsafe : validateSafety (normalize s.data) = none)
    (hparse : parseCommand now (normalize s.data) = some (.ctorCall c args))
    (hallow : allowedObjects.contains c = false) :
    execute ctx applyFn constructFn now s =
      (.error (.forbidden ("Constructor '" ++ c ++ "' is not allowed")), []) := by
  simp only [execute, hsafe, hparse]
  simp only [executeConstructor, hallow, Bool.false_eq_true, if_false]

/-- Witness for C7: `new Unapproved()`. -/
theorem ctor_not_allowlisted_forbidden_witness :
    execute demoCtx (fun _ _ _ => .undefined) (fun _ _ => .undefined) 0 "new Unapproved()" =
      (.error (.forbidden "Constructor 'Unapproved' is not allowed"), []) :=
  ctor_not_allowlisted_forbidden demoCtx (fun _ _ _ => .undefined) (fun _ _ => .undefined) 0
    "new Unapproved()" "Unapproved" [] rfl rfl rfl

end SafeCmd

namespace SafeCmd

/-- C8: an argument text starting with `[` whose quote-normalised form fails
strict structured decoding is coerced to the empty list — the malformed input
is silently swallowed rather than surfaced as an error. -/
theorem bracket_decode_failure_empty_array
    (now : Int) (t : List Char)
    (hfail : jsonParse (replaceQuotes ('[' :: t)) = none) :
    parseValue now ('[' :: t) = .arr [] := by
  show (match jsonParse (replaceQuotes ('[' :: t)) with
        | some v => v
        | none => Value.arr []) = Value.arr []
  rw [hfail]

/-- Witness for C8: the unterminated literal `[1, 2,`. -/
theorem bracket_decode_failure_empty_array_witness :
    jsonParse (replaceQuotes ('[' :: "1, 2,".data)) = none ∧
    parseValue 0 ('[' :: "1, 2,".data) = .arr [] :=
  ⟨rfl, bracket_decode_failure_empty_array 0 "1, 2,".data rfl⟩

/-- C9 counterexample: the claim's clause that value kinds other than strings
and nested mappings pass through the sanitizer unchanged is false at an array
value — `typeof` classifies an array as an object, so it is rebuilt from its
`Object.entries` into an index-keyed plain mapping. -/
theorem sanitizer_claim_counterexample :
    sanitizeObject (.obj [("a", .arr [.num (.ofInt 1), .num (.ofInt 2)])]) ≠
      .obj [("a", .arr [.num (.ofInt 1), .num (.ofInt 2)])] ∧
    sanitizeObject (.obj [("a", .arr [.num (.ofInt 1), .num (.ofInt 2)])]) =
      .obj [("a", .obj [("0", .num (.ofInt 1)), ("1", .num (.ofInt 2))])] := by
  have he : sanitizeObject (.obj [("a", .arr [.num (.ofInt 1), .num (.ofInt 2)])]) =
      .obj [("a", .obj [("0", .num (.ofInt 1)), ("1", .num (.ofInt 2))])] := by
    simp only [sanitizeObject, sanitizePairs, sanitizeField, sanitizeElems]
    rfl
  refine ⟨?_, he⟩
  rw [he]
  intro hcontra
  simp at hcontra

/-- C9 amended: at every nesting level the sanitizer drops keys with the `__`
or `on` prefixes, strips `<`/`>` from retained string values, recurses into
retained mapping values, and passes non-object scalar values (booleans,
numbers, `null`, `undefined`) through unchanged; but a retained value of
object kind that is not a plain mapping is also recursed into as an object —
an array value becomes a mapping keyed by its decimal indices (and a date an
empty mapping) instead of passing through unchanged.  The claim's concrete
example behaves exactly as stated. -/
theorem sanitizer_amended_behaviour :
    (sanitizeObject (.obj [("__proto__", .num (.ofInt 1)), ("onClick", .num (.ofInt 2)),
        ("title", .str "<b>hi</b>"),
        ("nested", .obj [("onLoad", .num (.ofInt 3)), ("safe", .str "ok")])]) =
      .obj [("title", .str "bhi/b"), ("nested", .obj [("safe", .str "ok")])]) ∧
    (∀ kvs : List (String × Value),
      (sanitizePairs kvs).map Prod.fst =
        (kvs.filter fun p => !(strStarts "__" p.1 || strStarts "on" p.1)).map Prod.fst) ∧
    (∀ s : String, sanitizePairs [("title", .str s)] = [("title", .str (stripAngles s))]) ∧
    (∀ (b : Bool) (kvs : List (String × Value)),
      sanitizePairs (("safe", Value.bool b) :: kvs) = ("safe", .bool b) :: sanitizePairs kvs) ∧
    (sanitizeObject (.obj [("a", .arr [.num (.ofInt 1), .num (.ofInt 2)])]) =
      .obj [("a", .obj [("0", .num (.ofInt 1)), ("1", .num (.ofInt 2))])]) := by
  refine ⟨?_, ?_, ?_, ?_, ?_⟩
  · simp only [sanitizeObject, sanitizePairs, sanitizeField]
    rfl
  · intro kvs
    induction kvs with
    | nil => simp [sanitizePairs]
    | cons hd tl ih =>
      obtain ⟨k, v⟩ := hd
      by_cases h : (strStarts "__" k || strStarts "on" k) = true
      · have hb := h
        rw [Bool.or_eq_true] at hb
        rcases hb with hb | hb <;> simp [sanitizePairs, List.filter_cons, h, hb, ih]
      · have hb := h
        rw [Bool.or_eq_true, not_or] at hb
        obtain ⟨h1, h2⟩ := hb
        rw [Bool.not_eq_true] at h1 h2
        simp [sanitizePairs, List.filter_cons, h1, h2, ih]
  · intro s
    simp only [sanitizePairs, sanitizeField]
    rfl
  · intro b kvs
    simp only [sanitizePairs, sanitizeField]
    rfl
  · simp only [sanitizeObject, sanitizePairs, sanitizeField, sanitizeElems]
    rfl

/-- Witness for C9's amended statement, instantiating the quantified parts. -/
theorem sanitizer_amended_behaviour_witness :
    (sanitizePairs [("x", .str "a"), ("__p", .null)]).map Prod.fst =
      ([(("x" : String), Value.str "a"), ("__p", .null)].filter
        fun p => !(strStarts "__" p.1 || strStarts "on" p.1)).map Prod.fst ∧
    sanitizePairs [("title", .str "<i>")] = [("title", .str (stripAngles "<i>"))] ∧
    sanitizePairs [("safe", Value.bool true)] = [("safe", .bool true)] :=
  ⟨sanitizer_amended_behaviour.2.1 [("x", .str "a"), ("__p", .null)],
   sanitizer_amended_behaviour.2.2.1 "<i>",
   sanitizer_amended_behaviour.2.2.2.1 true []⟩

end SafeCmd

namespace SafeCmd

/-- C10: in both method-call and property-access dispatch a root identifier
whose Context entry is present but falsy (0, empty string, false, null) is
reported NotFound, and so is a first property segment resolving to a falsy
value in a method call; only the later segments of property access test
against `undefined` alone and therefore let present-but-falsy values
through. -/
theorem dispatch_falsy_vs_undefined :
    (∀ (ctx : Context) (applyFn : Nat → JsVal → List Value → JsVal)
       (o : String) (v : JsVal) (args : List Value),
       lookupEntry ctx o = some v → falsy v = true →
       executeMethod ctx applyFn ⟨o, none, none, args⟩ =
         (.error (.notFound ("Object '" ++ o ++ "' not found")), [])) ∧
    (∀ (ctx : Context) (o : String) (v : JsVal) (p1 p2 : Option String),
       lookupEntry ctx o = some v → falsy v = true →
       executeProperty ctx ⟨o, p1, p2⟩ =
         .error (.notFound ("Object '" ++ o ++ "' not found"))) ∧
    (∀ (ctx : Context) (applyFn : Nat → JsVal → List Value → JsVal)
       (o prop : String) (sub : Option String) (args : List Value),
       falsy (ctxGet ctx o) = false → falsy (getProp (ctxGet ctx o) prop) = true →
       executeMethod ctx applyFn ⟨o, some prop, sub, args⟩ =
         (.error (.notFound ("Property '" ++ prop ++ "' not found on " ++ o)), [])) ∧
    (∀ (ctx : Context) (o prop : String),
       falsy (ctxGet ctx o) = false → isUndefined (getProp (ctxGet ctx o) prop) = false →
       executeProperty ctx ⟨o, some prop, none⟩ = .ok (getProp (ctxGet ctx o) prop)) ∧
    (∀ (ctx : Context) (o prop sub : String),
       falsy (ctxGet ctx o) = false → isUndefined (getProp (ctxGet ctx o) prop) = false →
       isUndefined (getProp (getProp (ctxGet ctx o) prop) sub) = false →
       executeProperty ctx ⟨o, some prop, some sub⟩ =
         .ok (getProp (getProp (ctxGet ctx o) prop) sub)) := by
  refine ⟨?_, ?_, ?_, ?_, ?_⟩
  · intro ctx applyFn o v args h1 h2
    have hv : ctxGet ctx o = v := by simp [ctxGet, h1]
    simp [executeMethod, hv, h2]
  · intro ctx o v p1 p2 h1 h2
    have hv : ctxGet ctx o = v := by simp [ctxGet, h1]
    simp [executeProperty, hv, h2]
  · intro ctx applyFn o prop sub args h1 h2
    simp [executeMethod, h1, h2]
  · intro ctx o prop h1 h2
    simp [executeProperty, h1, h2]
  · intro ctx o prop sub h1 h2 h3
    simp [executeProperty, h1, h2, h3]

/-- Witness for C10 on a concrete context: `z` maps to the falsy-but-present
number 0; `w.p` is 0 and `w.q.r` is `false`. -/
theorem dispatch_falsy_vs_undefined_witness :
    executeMethod [("z", .num ⟨0, 0⟩)] (fun _ _ _ => .undefined) ⟨"z", none, none, []⟩ =
      (.error (.notFound "Object 'z' not found"), []) ∧
    executeProperty [("z", .num ⟨0, 0⟩)] ⟨"z", none, none⟩ =
      .error (.notFound "Object 'z' not found") ∧
    executeMethod [("w", .obj [("p", .num ⟨0, 0⟩), ("q", .obj [("r", .bool false)])])]
      (fun _ _ _ => .undefined) ⟨"w", some "p", none, []⟩ =
      (.error (.notFound "Property 'p' not found on w"), []) ∧
    executeProperty [("w", .obj [("p", .num ⟨0, 0⟩), ("q", .obj [("r", .bool false)])])]
      ⟨"w", some "p", none⟩ = .ok (.num ⟨0, 0⟩) ∧
    executeProperty [("w", .obj [("p", .num ⟨0, 0⟩), ("q", .obj [("r", .bool false)])])]
      ⟨"w", some "q", some "r"⟩ = .ok (.bool false) :=
  ⟨dispatch_falsy_vs_undefined.1 _ _ "z" (.num ⟨0, 0⟩) [] rfl rfl,
   dispatch_falsy_vs_undefined.2.1 _ "z" (.num ⟨0, 0⟩) none none rfl rfl,
   dispatch_falsy_vs_undefined.2.2.1 _ _ "w" "p" none [] rfl rfl,
   dispatch_falsy_vs_undefined.2.2.2.1 _ "w" "p" rfl rfl,
   dispatch_falsy_vs_undefined.2.2.2.2 _ "w" "q" "r" rfl rfl rfl⟩

end SafeCmd
